import Mathlib

/-!
Verification of the Sony XM6 protocol engine (frame codec and connector
receive path) against its natural-language specification.

The definitions below are a shallow embedding of `src/protocol/codec.py`,
`src/protocol/constants.py` and the receive-processing parts of
`src/bluetooth/connector.py`.  Byte strings are modelled as `List Nat`
(each element a byte value 0-255 where the Python type guarantees it),
machine arithmetic is `Nat` with explicit `% 256` where the source
truncates, and fallible operations return `Option`.
-/

namespace SonyXM6

/-- Frame start marker byte (`START_MARKER = 0x3E` in constants.py). -/
def START_MARKER : Nat := 0x3E

/-- Frame end marker byte (`END_MARKER = 0x3C` in constants.py). -/
def END_MARKER : Nat := 0x3C

/-- Escape marker byte (`ESCAPE_BYTE = 0x3D` in constants.py). -/
def ESCAPE_BYTE : Nat := 0x3D

/-- The `ESCAPE_MAP` dict of constants.py: reserved byte to substitute. -/
def ESCAPE_MAP (b : Nat) : Option Nat :=
  if b = 0x3C then some 0x2C
  else if b = 0x3D then some 0x2D
  else if b = 0x3E then some 0x2E
  else none

/-- The `UNESCAPE_MAP` dict of constants.py: substitute back to reserved byte. -/
def UNESCAPE_MAP (b : Nat) : Option Nat :=
  if b = 0x2C then some 0x3C
  else if b = 0x2D then some 0x3D
  else if b = 0x2E then some 0x3E
  else none

/-- `codec.escape`: each reserved byte becomes the escape marker followed by
its substitute; all other bytes pass through. -/
def escape : List Nat → List Nat
  | [] => []
  | b :: rest =>
    match ESCAPE_MAP b with
    | some sub => ESCAPE_BYTE :: sub :: escape rest
    | none => b :: escape rest

/-- `codec.unescape`: an escape marker followed by a recognized substitute is
replaced by the original reserved byte (consuming both positions); an escape
marker not followed by a recognized substitute, or at the very end, passes
through literally. -/
def unescape : List Nat → List Nat
  | [] => []
  | [b] => [b]
  | b :: next :: rest =>
    if b = ESCAPE_BYTE then
      match UNESCAPE_MAP next with
      | some orig => orig :: unescape rest
      | none => b :: unescape (next :: rest)
    else b :: unescape (next :: rest)

/-- `codec.checksum`: wrapping byte sum (`sum(data) & 0xFF`). -/
def checksum (data : List Nat) : Nat := data.sum % 256

/-- A decoded protocol message (`codec.Message`). -/
structure Message where
  data_type : Nat
  seq : Nat
  payload : List Nat
deriving DecidableEq

/-- The 6-byte header built inside `codec.pack`: data_type, seq, and the
4-byte big-endian payload length. -/
def packHeader (data_type seq length : Nat) : List Nat :=
  [data_type, seq,
   (length >>> 24) % 256,
   (length >>> 16) % 256,
   (length >>> 8) % 256,
   length % 256]

/-- The `inner` value of `codec.pack`: header followed by payload. -/
def packInner (data_type seq : Nat) (payload : List Nat) : List Nat :=
  packHeader data_type seq payload.length ++ payload

/-- The `inner_with_chk` value of `codec.pack`: header, payload and the
checksum byte over header+payload. -/
def innerWithChk (data_type seq : Nat) (payload : List Nat) : List Nat :=
  packInner data_type seq payload ++ [checksum (packInner data_type seq payload)]

/-- `codec.pack`: start marker, escaped inner-with-checksum, end marker. -/
def pack (data_type seq : Nat) (payload : List Nat) : List Nat :=
  START_MARKER :: escape (innerWithChk data_type seq payload) ++ [END_MARKER]

/-- The body of `codec.unpack` after the markers have been stripped and the
interior unescaped: length check, checksum check, header parse, payload
slice and the declared-length comparison. -/
def unpackInner (inner : List Nat) : Option Message :=
  if inner.length < 7 then none
  else
    let expected_chk := inner.getLastD 0
    let actual_chk := checksum inner.dropLast
    if expected_chk ≠ actual_chk then none
    else
      let data_type := inner.getD 0 0
      let seq := inner.getD 1 0
      let length := ((inner.getD 2 0) <<< 24) ||| ((inner.getD 3 0) <<< 16) |||
                    ((inner.getD 4 0) <<< 8) ||| (inner.getD 5 0)
      let payload := (inner.drop 6).take length
      if payload.length ≠ length then none
      else some ⟨data_type, seq, payload⟩

/-- `codec.unpack`: marker checks, unescape the interior, then `unpackInner`. -/
def unpack (raw : List Nat) : Option Message :=
  if raw.length < 2 then none
  else if raw.head? ≠ some START_MARKER then none
  else if raw.getLast? ≠ some END_MARKER then none
  else unpackInner (unescape ((raw.drop 1).dropLast))

/-- `bytes.find(x)` from the given start offset, as used by
`codec.extract_message`; `none` models Python's `-1`. -/
def find_byte : List Nat → Nat → Option Nat
  | [], _ => none
  | b :: rest, x => if b = x then some 0 else (find_byte rest x).map (· + 1)

/-- `buffer.find(x, start)`: first index of `x` at or after `start`. -/
def find_from (buffer : List Nat) (x start : Nat) : Option Nat :=
  (find_byte (buffer.drop start) x).map (· + start)

/-- Fuel-indexed version of `codec.extract_message`.  Each malformed-frame
retry recurses on the buffer starting one past the found start marker, so a
fuel of the buffer length always suffices (proved below). -/
def extractAux : Nat → List Nat → Option Message × List Nat
  | 0, buffer => (none, buffer)
  | fuel + 1, buffer =>
    match find_from buffer START_MARKER 0 with
    | none => (none, buffer)
    | some start =>
      match find_from buffer END_MARKER (start + 1) with
      | none => (none, buffer.drop start)
      | some e =>
        let raw := (buffer.drop start).take (e + 1 - start)
        let remaining := buffer.drop (e + 1)
        match unpack raw with
        | none => extractAux fuel (buffer.drop (start + 1))
        | some msg => (some msg, remaining)

/-- `codec.extract_message`: the recursion always terminates within
`buffer.length` retries. -/
def extract_message (buffer : List Nat) : Option Message × List Nat :=
  extractAux buffer.length buffer

/-- The members of the `DataType` enumeration in constants.py.  Note that no
`ACK_MDR` or `ACK_MDR_NO2` member exists. -/
def DataTypeMembers : List (String × Nat) :=
  [("DATA", 0x00), ("ACK", 0x01), ("DATA_MDR", 0x0C),
   ("DATA_COMMON", 0x0D), ("DATA_MDR_NO2", 0x0E)]

/-- Python attribute access `DataType.<name>`: `none` models the
`AttributeError` raised when the member does not exist. -/
def dataTypeAttr (name : String) : Option Nat :=
  DataTypeMembers.lookup name

/-- `codec.build_ack`.  Python evaluates the `ack_type_map` dict literal
entry by entry (key, value, key, value, ...), so the lookups below happen in
source order; a missing member aborts with an error (`none`). -/
def build_ack (data_type seq : Nat) : Option (List Nat) := do
  let k1 ← dataTypeAttr "DATA"
  let v1 ← dataTypeAttr "ACK"
  let k2 ← dataTypeAttr "DATA_MDR"
  let v2 ← dataTypeAttr "ACK_MDR"
  let k3 ← dataTypeAttr "DATA_MDR_NO2"
  let v3 ← dataTypeAttr "ACK_MDR_NO2"
  let ack_type := if data_type = k1 then v1
                  else if data_type = k2 then v2
                  else if data_type = k3 then v3
                  else v1
  some (pack ack_type seq [])

/-! ### Escaping lemmas -/

lemma unescape_cons_of_ne {b : Nat} (l : List Nat) (h : b ≠ ESCAPE_BYTE) :
    unescape (b :: l) = b :: unescape l := by
  cases l with
  | nil => rfl
  | cons c t => simp [unescape, h]

lemma unescape_escape (l : List Nat) : unescape (escape l) = l := by
  induction l with
  | nil => rfl
  | cons b rest ih =>
    by_cases h1 : b = 0x3C
    · subst h1; simp [escape, ESCAPE_MAP, unescape, UNESCAPE_MAP, ESCAPE_BYTE, ih]
    · by_cases h2 : b = 0x3D
      · subst h2; simp [escape, ESCAPE_MAP, unescape, UNESCAPE_MAP, ESCAPE_BYTE, ih]
      · by_cases h3 : b = 0x3E
        · subst h3; simp [escape, ESCAPE_MAP, unescape, UNESCAPE_MAP, ESCAPE_BYTE, ih]
        · have hmap : ESCAPE_MAP b = none := by simp [ESCAPE_MAP, h1, h2, h3]
          have hne : b ≠ ESCAPE_BYTE := by simpa [ESCAPE_BYTE] using h2
          simp [escape, hmap, unescape_cons_of_ne _ hne, ih]

lemma mem_escape_ne (l : List Nat) :
    ∀ c ∈ escape l, c ≠ 0x3C ∧ c ≠ 0x3E := by
  induction l with
  | nil => simp [escape]
  | cons b rest ih =>
    intro c hc
    by_cases h1 : b = 0x3C
    · subst h1
      have heq : escape (0x3C :: rest) = 0x3D :: 0x2C :: escape rest := rfl
      rw [heq] at hc
      rcases List.mem_cons.mp hc with h | h
      · subst h; exact ⟨by norm_num, by norm_num⟩
      · rcases List.mem_cons.mp h with h | h
        · subst h; exact ⟨by norm_num, by norm_num⟩
        · exact ih c h
    · by_cases h2 : b = 0x3D
      · subst h2
        have heq : escape (0x3D :: rest) = 0x3D :: 0x2D :: escape rest := rfl
        rw [heq] at hc
        rcases List.mem_cons.mp hc with h | h
        · subst h; exact ⟨by norm_num, by norm_num⟩
        · rcases List.mem_cons.mp h with h | h
          · subst h; exact ⟨by norm_num, by norm_num⟩
          · exact ih c h
      · by_cases h3 : b = 0x3E
        · subst h3
          have heq : escape (0x3E :: rest) = 0x3D :: 0x2E :: escape rest := rfl
          rw [heq] at hc
          rcases List.mem_cons.mp hc with h | h
          · subst h; exact ⟨by norm_num, by norm_num⟩
          · rcases List.mem_cons.mp h with h | h
            · subst h; exact ⟨by norm_num, by norm_num⟩
            · exact ih c h
        · have hmap : ESCAPE_MAP b = none := by simp [ESCAPE_MAP, h1, h2, h3]
          have heq : escape (b :: rest) = b :: escape rest := by
            simp [escape, hmap]
          rw [heq] at hc
          rcases List.mem_cons.mp hc with h | h
          · subst h; exact ⟨h1, h3⟩
          · exact ih c h

lemma escape_eq_self_of_no_reserved (l : List Nat)
    (h : ∀ b ∈ l, ESCAPE_MAP b = none) : escape l = l := by
  induction l with
  | nil => rfl
  | cons b rest ih =>
    have hb : ESCAPE_MAP b = none := h b (by simp)
    simp [escape, hb, ih fun c hc => h c (by simp [hc])]

lemma unescape_eq_self_of_no_escape (l : List Nat)
    (h : ESCAPE_BYTE ∉ l) : unescape l = l := by
  induction l with
  | nil => rfl
  | cons b rest ih =>
    have hb : b ≠ ESCAPE_BYTE := fun hb => h (hb ▸ List.mem_cons_self b rest)
    rw [unescape_cons_of_ne _ hb, ih fun hr => h (List.mem_cons_of_mem _ hr)]

/-! ### Arithmetic lemmas for the 32-bit big-endian length field -/

lemma lor_mul_pow_add {x y k : Nat} (hy : y < 2 ^ k) :
    (x * 2 ^ k) ||| y = x * 2 ^ k + y := by
  apply Nat.eq_of_testBit_eq
  intro j
  rw [Nat.testBit_lor, Nat.mul_comm x (2 ^ k), Nat.testBit_mul_pow_two_add x hy j,
    Nat.testBit_mul_pow_two]
  by_cases hj : j < k
  · simp [hj, Nat.not_le_of_lt hj]
  · have hjk : k ≤ j := Nat.le_of_not_lt hj
    have hyj : y.testBit j = false :=
      Nat.testBit_lt_two_pow (lt_of_lt_of_le hy (Nat.pow_le_pow_right (by norm_num) hjk))
    simp [hj, hjk, hyj]

lemma parse4_eq {b2 b3 b4 b5 : Nat} (h3 : b3 < 256) (h4 : b4 < 256) (h5 : b5 < 256) :
    (b2 <<< 24) ||| (b3 <<< 16) ||| (b4 <<< 8) ||| b5 =
      b2 * 2 ^ 24 + b3 * 2 ^ 16 + b4 * 2 ^ 8 + b5 := by
  have e2 : b2 <<< 24 = b2 * 2 ^ 24 := Nat.shiftLeft_eq b2 24
  have e3 : b3 <<< 16 = b3 * 2 ^ 16 := Nat.shiftLeft_eq b3 16
  have e4 : b4 <<< 8 = b4 * 2 ^ 8 := Nat.shiftLeft_eq b4 8
  have s1 : (b2 <<< 24) ||| (b3 <<< 16) = b2 * 2 ^ 24 + b3 * 2 ^ 16 := by
    rw [e2, e3]
    exact lor_mul_pow_add (by nlinarith)
  have s2 : (b2 <<< 24) ||| (b3 <<< 16) ||| (b4 <<< 8) =
      b2 * 2 ^ 24 + b3 * 2 ^ 16 + b4 * 2 ^ 8 := by
    rw [s1, e4]
    have hrw : b2 * 2 ^ 24 + b3 * 2 ^ 16 = (b2 * 2 ^ 8 + b3) * 2 ^ 16 := by ring
    rw [hrw, lor_mul_pow_add (by nlinarith)]
  rw [s2]
  have hrw : b2 * 2 ^ 24 + b3 * 2 ^ 16 + b4 * 2 ^ 8 =
      (b2 * 2 ^ 16 + b3 * 2 ^ 8 + b4) * 2 ^ 8 := by ring
  rw [hrw, lor_mul_pow_add (by nlinarith)]

lemma header_parse_eq {L : Nat} (hL : L < 2 ^ 32) :
    (((L >>> 24) % 256) <<< 24) ||| (((L >>> 16) % 256) <<< 16) |||
      (((L >>> 8) % 256) <<< 8) ||| (L % 256) = L := by
  rw [parse4_eq (Nat.mod_lt _ (by norm_num)) (Nat.mod_lt _ (by norm_num))
    (Nat.mod_lt _ (by norm_num))]
  rw [Nat.shiftRight_eq_div_pow, Nat.shiftRight_eq_div_pow, Nat.shiftRight_eq_div_pow]
  omega

/-! ### Checksum lemmas -/

lemma sum_set (l : List Nat) (i b : Nat) (hi : i < l.length) :
    (l.set i b).sum + l.getD i 0 = l.sum + b := by
  induction l generalizing i with
  | nil => simp at hi
  | cons a t ih =>
    cases i with
    | zero =>
      simp only [List.set_cons_zero, List.sum_cons, List.getD_cons_zero]
      omega
    | succ j =>
      have hj : j < t.length := by simpa using hi
      have ih2 := ih j hj
      simp only [List.set_cons_succ, List.sum_cons, List.getD_cons_succ]
      omega

lemma mem_packInner_lt (t s : Nat) (P : List Nat) (ht : t < 256) (hs : s < 256)
    (hP : ∀ b ∈ P, b < 256) : ∀ b ∈ packInner t s P, b < 256 := by
  intro b hb
  rcases List.mem_append.mp hb with h | h
  · simp only [packHeader, List.mem_cons, List.not_mem_nil, or_false] at h
    rcases h with h | h | h | h | h | h <;> subst h
    · exact ht
    · exact hs
    · exact Nat.mod_lt _ (by norm_num)
    · exact Nat.mod_lt _ (by norm_num)
    · exact Nat.mod_lt _ (by norm_num)
    · exact Nat.mod_lt _ (by norm_num)
  · exact hP b h

/-! ### Decoding a framed packet -/

lemma unpack_frame_eq (z : List Nat) :
    unpack (START_MARKER :: escape z ++ [END_MARKER]) = unpackInner z := by
  have hlen : (START_MARKER :: escape z ++ [END_MARKER]).length = (escape z).length + 2 := by
    simp
  rw [unpack]
  rw [if_neg (by rw [hlen]; omega)]
  rw [if_neg (by simp)]
  rw [if_neg (by
    rw [show START_MARKER :: escape z ++ [END_MARKER] =
      (START_MARKER :: escape z) ++ [END_MARKER] from by simp,
      List.getLast?_concat]
    simp)]
  have htrim : ((START_MARKER :: escape z ++ [END_MARKER]).drop 1).dropLast = escape z := by
    simp [List.dropLast_concat]
  rw [htrim, unescape_escape]

lemma checksum_packInner (t s : Nat) (P : List Nat) :
    checksum (packInner t s P) = (packInner t s P).sum % 256 := rfl

lemma innerWithChk_cons_form (t s : Nat) (P : List Nat) :
    innerWithChk t s P =
      t :: s :: ((P.length >>> 24) % 256) :: ((P.length >>> 16) % 256) ::
        ((P.length >>> 8) % 256) :: (P.length % 256) ::
        (P ++ [checksum (packInner t s P)]) := by
  simp [innerWithChk, packInner, packHeader]

lemma unpack_pack (t s : Nat) (P : List Nat) (hL : P.length < 2 ^ 32) :
    unpack (pack t s P) = some ⟨t, s, P⟩ := by
  rw [pack, unpack_frame_eq, unpackInner]
  have hlen : (innerWithChk t s P).length = 7 + P.length := by
    simp [innerWithChk, packInner, packHeader]
    omega
  rw [if_neg (by omega)]
  have hlast : (innerWithChk t s P).getLastD 0 = checksum (packInner t s P) := by
    rw [innerWithChk, List.getLastD_concat]
  have hdrop : (innerWithChk t s P).dropLast = packInner t s P := by
    rw [innerWithChk, List.dropLast_concat]
  rw [if_neg (by rw [hlast, hdrop]; simp)]
  rw [innerWithChk_cons_form]
  simp only [List.getD_cons_zero, List.getD_cons_succ]
  rw [header_parse_eq hL]
  have hdrop6 : (t :: s :: ((P.length >>> 24) % 256) :: ((P.length >>> 16) % 256) ::
      ((P.length >>> 8) % 256) :: (P.length % 256) ::
      (P ++ [checksum (packInner t s P)])).drop 6 = P ++ [checksum (packInner t s P)] := rfl
  rw [hdrop6, List.take_left]
  simp

/-! ### Locating markers in a buffer -/

lemma find_byte_lt {l : List Nat} {x i : Nat} (h : find_byte l x = some i) :
    i < l.length := by
  induction l generalizing i with
  | nil => simp [find_byte] at h
  | cons b rest ih =>
    by_cases hb : b = x
    · rw [find_byte, if_pos hb] at h
      cases h
      simp
    · rw [find_byte, if_neg hb] at h
      cases hf : find_byte rest x with
      | none => rw [hf] at h; simp at h
      | some j =>
        rw [hf] at h
        simp at h
        have := ih hf
        simp only [List.length_cons]
        omega

lemma find_byte_append_first {l₁ l₂ : List Nat} {x : Nat} (h : x ∉ l₁) :
    find_byte (l₁ ++ x :: l₂) x = some l₁.length := by
  induction l₁ with
  | nil => simp [find_byte]
  | cons b rest ih =>
    have hb : b ≠ x := fun hb => h (hb ▸ List.mem_cons_self b rest)
    rw [List.cons_append, find_byte, if_neg hb,
      ih fun hr => h (List.mem_cons_of_mem _ hr)]
    simp

lemma find_from_eq (l : List Nat) (x s : Nat) :
    find_from l x s = (find_byte (l.drop s) x).map (· + s) := rfl

lemma find_from_zero_lt {l : List Nat} {x i : Nat}
    (h : find_from l x 0 = some i) : i < l.length := by
  rw [find_from_eq] at h
  cases hf : find_byte (l.drop 0) x with
  | none => rw [hf] at h; simp at h
  | some j =>
    rw [hf] at h
    simp at h
    have := find_byte_lt hf
    simp only [List.drop_zero] at this
    omega

/-! ### Fuel sufficiency for extract_message -/

lemma extractAux_fuel :
    ∀ fuel buffer, (buffer : List Nat).length ≤ fuel →
      extractAux fuel buffer = extractAux buffer.length buffer := by
  intro fuel
  induction fuel using Nat.strong_induction_on with
  | _ fuel ih =>
    intro buffer hlen
    match fuel with
    | 0 =>
      have : buffer.length = 0 := Nat.le_zero.mp hlen
      rw [this]
    | f + 1 =>
      cases hb : buffer.length with
      | zero =>
        have : buffer = [] := List.length_eq_zero.mp hb
        subst this
        rfl
      | succ k =>
        show extractAux (f + 1) buffer = extractAux (k + 1) buffer
        rw [extractAux, extractAux]
        cases hf : find_from buffer START_MARKER 0 with
        | none => rfl
        | some start =>
          simp only
          cases he : find_from buffer END_MARKER (start + 1) with
          | none => rfl
          | some e =>
            simp only
            cases hu : unpack ((buffer.drop start).take (e + 1 - start)) with
            | some msg => rfl
            | none =>
              simp only
              have hstart : start < buffer.length := find_from_zero_lt hf
              have hd : (buffer.drop (start + 1)).length ≤ k := by
                rw [List.length_drop]
                omega
              have h1 := ih f (by omega) (buffer.drop (start + 1)) (by omega)
              have h2 := ih k (by omega) (buffer.drop (start + 1)) (by omega)
              rw [h1, h2]

lemma extract_message_eq_aux (fuel : Nat) (buffer : List Nat)
    (h : buffer.length ≤ fuel) : extractAux fuel buffer = extract_message buffer :=
  extractAux_fuel fuel buffer h

/-! ### Step lemmas for extract_message -/

lemma extract_message_resync {buffer : List Nat} {start e : Nat}
    (hst : find_from buffer START_MARKER 0 = some start)
    (he : find_from buffer END_MARKER (start + 1) = some e)
    (hu : unpack ((buffer.drop start).take (e + 1 - start)) = none) :
    extract_message buffer = extract_message (buffer.drop (start + 1)) := by
  have hstart : start < buffer.length := find_from_zero_lt hst
  obtain ⟨k, hk⟩ : ∃ k, buffer.length = k + 1 := ⟨buffer.length - 1, by omega⟩
  rw [extract_message, hk, extractAux]
  simp only [hst, he, hu]
  rw [extract_message_eq_aux k _ (by rw [List.length_drop]; omega)]

lemma extract_message_success {l : List Nat} {t s : Nat} {P R : List Nat}
    (hl : START_MARKER ∉ l) (hL : P.length < 2 ^ 32) :
    extract_message (l ++ pack t s P ++ R) = (some ⟨t, s, P⟩, R) := by
  set E := escape (innerWithChk t s P) with hE
  have hpack : pack t s P = START_MARKER :: E ++ [END_MARKER] := rfl
  have hbuf : l ++ pack t s P ++ R = l ++ START_MARKER :: (E ++ END_MARKER :: R) := by
    rw [hpack]; simp
  have hEnc : END_MARKER ∉ E := by
    intro hmem
    exact (mem_escape_ne _ _ hmem).1 rfl
  have hst : find_from (l ++ pack t s P ++ R) START_MARKER 0 = some l.length := by
    rw [find_from_eq, hbuf, List.drop_zero, find_byte_append_first hl]
    rfl
  have hdrop1 : (l ++ pack t s P ++ R).drop (l.length + 1) = E ++ END_MARKER :: R := by
    rw [hbuf, show l ++ START_MARKER :: (E ++ END_MARKER :: R) =
      (l ++ [START_MARKER]) ++ (E ++ END_MARKER :: R) from by simp,
      List.drop_left' (by simp)]
  have he : find_from (l ++ pack t s P ++ R) END_MARKER (l.length + 1) =
      some (E.length + (l.length + 1)) := by
    rw [find_from_eq, hdrop1, find_byte_append_first hEnc]
    rfl
  have hraw : ((l ++ pack t s P ++ R).drop l.length).take
      ((E.length + (l.length + 1)) + 1 - l.length) = pack t s P := by
    rw [hbuf, List.drop_left' rfl]
    have harith : (E.length + (l.length + 1)) + 1 - l.length = E.length + 1 + 1 := by omega
    rw [harith, List.take_succ_cons, List.take_append]
    rw [hpack]
    simp [List.take]
  have hrem : (l ++ pack t s P ++ R).drop ((E.length + (l.length + 1)) + 1) = R := by
    rw [show l ++ pack t s P ++ R = (l ++ pack t s P) ++ R from by simp,
      List.drop_left' (by rw [hpack]; simp; omega)]
  have hpos : 0 < (l ++ pack t s P ++ R).length := by
    rw [hpack]
    simp
  obtain ⟨k, hk⟩ : ∃ k, (l ++ pack t s P ++ R).length = k + 1 :=
    ⟨(l ++ pack t s P ++ R).length - 1, by omega⟩
  rw [extract_message, hk, extractAux]
  simp only [hst, he, hraw, hrem, unpack_pack t s P hL]

/-! ### Connector model (`src/bluetooth/connector.py`, receive path) -/

/-- `CommandType.BATTERY_RET` in constants.py. -/
def BATTERY_RET : Nat := 0x23

/-- `CommandType.NC_ASM_RET` in constants.py. -/
def NC_ASM_RET : Nat := 0x67

/-- `CommandType.NC_ASM_NOTIFY` in constants.py. -/
def NC_ASM_NOTIFY : Nat := 0x69

/-- `CommandType.PLAY_RET_PARAM` in constants.py. -/
def PLAY_RET_PARAM : Nat := 0xA7

/-- `CommandType.DSEE_RET` in constants.py. -/
def DSEE_RET : Nat := 0xE7

/-- `CommandType.DSEE_NOTIFY` in constants.py. -/
def DSEE_NOTIFY : Nat := 0xE9

/-- `CommandType.SPEAK_TO_CHAT_RET` in constants.py. -/
def SPEAK_TO_CHAT_RET : Nat := 0xF7

/-- `CommandType.SPEAK_TO_CHAT_NOTIFY` in constants.py. -/
def SPEAK_TO_CHAT_NOTIFY : Nat := 0xF9

/-- The mutable fields of `SonyBluetoothConnector` that the receive path
touches: the send sequence number, presence of the RFCOMM channel object
(`self.channel`, as a flag), the receive buffer, the queued pending
responses, and the cached device-state fields. -/
structure ConnectorState where
  seq_number : Nat
  channel : Bool
  recv_buffer : List Nat
  pending_responses : List Message
  battery_level : Int
  battery_charging : Bool
  anc_mode : String
  volume_level : Int
  dsee_enabled : Bool
  speak_to_chat_enabled : Bool
deriving DecidableEq

/-- `connector._build_ack_packet`: a raw ACK packet (type `DataType.ACK =
0x01`, no payload), assembled by hand without the escaping step. -/
def _build_ack_packet (seq : Nat) : List Nat :=
  let inner : List Nat := [0x01, seq, 0, 0, 0, 0]
  let chk := inner.sum % 256
  [0x3E] ++ inner ++ [chk] ++ [0x3C]

/-- `SonyBluetoothConnector._process_notification`: dispatch on the first
payload byte and update the corresponding cached state fields. -/
def _process_notification (st : ConnectorState) (msg : Message) : ConnectorState :=
  if msg.payload = [] then st
  else
    let cmd := msg.payload.getD 0 0
    if cmd = BATTERY_RET then
      if 4 ≤ msg.payload.length then
        { st with battery_level := (msg.payload.getD 2 0 : Int),
                  battery_charging := msg.payload.getD 3 0 ≠ 0 }
      else st
    else if cmd = NC_ASM_RET ∨ cmd = NC_ASM_NOTIFY then
      if 5 ≤ msg.payload.length then
        let enable := msg.payload.getD 3 0 ≠ 0
        let asm_on := msg.payload.getD 4 0 ≠ 0
        { st with anc_mode :=
            if enable ∧ ¬ asm_on then "nc"
            else if enable ∧ asm_on then "ambient"
            else "off" }
      else st
    else if cmd = PLAY_RET_PARAM ∨ cmd = 0xA9 then
      if 3 ≤ msg.payload.length then
        { st with volume_level := (msg.payload.getD 2 0 : Int) }
      else st
    else if cmd = DSEE_RET ∨ cmd = DSEE_NOTIFY then
      if 3 ≤ msg.payload.length then
        { st with dsee_enabled := msg.payload.getD 2 0 ≠ 0 }
      else st
    else if cmd = SPEAK_TO_CHAT_RET ∨ cmd = SPEAK_TO_CHAT_NOTIFY then
      if 3 ≤ msg.payload.length then
        { st with speak_to_chat_enabled := msg.payload.getD 2 0 ≠ 0 }
      else st
    else st

/-- Observable actions performed by `_on_data_received`, in program order:
a raw packet written to the channel, a message fed to
`_process_notification`, a message appended to `_pending_responses`. -/
inductive RxEvent where
  | sent (packet : List Nat)
  | processed (msg : Message)
  | queued (msg : Message)
deriving DecidableEq

/-- The body of the `while` loop in `_on_data_received` for one extracted
message: ACK frames update `seq_number`; data frames are ACKed, fed to
`_process_notification` and queued.  In both branches the ACK write happens
only if a channel object is present, and (for data frames) before
notification processing and queueing — the event list records this order. -/
def handle_frame (st : ConnectorState) (msg : Message) : ConnectorState × List RxEvent :=
  if msg.data_type = 0x01 then
    let next_seq := if msg.seq ≤ 1 then 1 - msg.seq else 0
    let ack := _build_ack_packet next_seq
    let evs := if st.channel then [RxEvent.sent ack] else []
    ({ st with seq_number := msg.seq }, evs)
  else
    let next_seq := if msg.seq ≤ 1 then 1 - msg.seq else 0
    let ack := _build_ack_packet next_seq
    let evs := if st.channel then [RxEvent.sent ack] else []
    let st2 := _process_notification st msg
    ({ st2 with pending_responses := st2.pending_responses ++ [msg] },
     evs ++ [RxEvent.processed msg, RxEvent.queued msg])

/-- The `while True` loop of `_on_data_received`: extract a frame, store the
remaining buffer, stop on `none`, otherwise handle the frame and continue.
Each successful extraction consumes at least the end marker, so a fuel of
`buffer.length + 1` always reaches the `none` case. -/
def recv_loop : Nat → ConnectorState → ConnectorState × List RxEvent
  | 0, st => (st, [])
  | fuel + 1, st =>
    let res := extract_message st.recv_buffer
    let st1 := { st with recv_buffer := res.2 }
    match res.1 with
    | none => (st1, [])
    | some msg =>
      let step := handle_frame st1 msg
      let rest := recv_loop fuel step.1
      (rest.1, step.2 ++ rest.2)

/-- `SonyBluetoothConnector._on_data_received`: append the arriving bytes to
the receive buffer, then run the extraction loop. -/
def _on_data_received (st : ConnectorState) (data : List Nat) : ConnectorState × List RxEvent :=
  let st1 := { st with recv_buffer := st.recv_buffer ++ data }
  recv_loop (st1.recv_buffer.length + 1) st1

/-- The field values set by `SonyBluetoothConnector.__init__` (no channel
object, empty buffers, unknown cached state). -/
def initConnectorState : ConnectorState :=
  { seq_number := 0, channel := false, recv_buffer := [], pending_responses := [],
    battery_level := -1, battery_charging := false, anc_mode := "unknown",
    volume_level := -1, dsee_enabled := false, speak_to_chat_enabled := false }

/-! ### Claim theorems -/

/-- C8: for every data_type and seq, `codec.build_ack` fails (raises
`AttributeError`, modelled as `none`) instead of returning an ACK packet,
because its ACK-type mapping references the nonexistent `DataType.ACK_MDR`
and `DataType.ACK_MDR_NO2` members. -/
theorem build_ack_always_errors (data_type seq : Nat) :
    build_ack data_type seq = none := rfl

/-- C9: for seq 0 or 1, the connector's hand-rolled `_build_ack_packet`
produces byte-for-byte the same packet as `codec.pack(DataType.ACK, seq, b"")`. -/
theorem build_ack_packet_eq_pack (seq : Nat) (h : seq = 0 ∨ seq = 1) :
    _build_ack_packet seq = pack 0x01 seq [] := by
  rcases h with h | h <;> subst h <;> decide

/-- Witness for C9 at seq = 0. -/
theorem build_ack_packet_eq_pack_witness :
    ((0 : Nat) = 0 ∨ (0 : Nat) = 1) ∧ _build_ack_packet 0 = pack 0x01 0 [] :=
  ⟨Or.inl rfl, build_ack_packet_eq_pack 0 (Or.inl rfl)⟩

/-- C5: `extract_message` terminates on every finite buffer: the fuelled
recursion `extractAux` gives the same answer for every fuel at least the
buffer length (so the recursion bottoms out within `buffer.length` retries),
and each resynchronization retry — which drops the byte at the found start
marker — operates on a strictly shorter buffer. -/
theorem extract_message_terminating (buffer : List Nat) :
    (∀ fuel, buffer.length ≤ fuel → extractAux fuel buffer = extract_message buffer) ∧
    (∀ start, find_from buffer START_MARKER 0 = some start →
      (buffer.drop (start + 1)).length < buffer.length) := by
  constructor
  · intro fuel h
    exact extract_message_eq_aux fuel buffer h
  · intro start h
    have := find_from_zero_lt h
    rw [List.length_drop]
    omega

/-- Witness for C5 on a small concrete buffer. -/
theorem extract_message_terminating_witness :
    ([0x3E, 0x00, 0x3C] : List Nat).length ≤ 7 ∧
      extractAux 7 [0x3E, 0x00, 0x3C] = extract_message [0x3E, 0x00, 0x3C] :=
  ⟨by decide, (extract_message_terminating [0x3E, 0x00, 0x3C]).1 7 (by decide)⟩

/-- C4 counterexample: the NC/ASM decoder stores the string "nc", not
"noise_cancelling", for a response with the enable flag set and the ambient
flag clear (payload `69 19 01 01 00`). -/
theorem anc_decode_string_cx :
    (_process_notification { initConnectorState with channel := true }
        ⟨0x0C, 0, [0x69, 0x19, 0x01, 0x01, 0x00]⟩).anc_mode = "nc" ∧
      ("nc" : String) ≠ "noise_cancelling" := by
  constructor
  · rfl
  · decide

/-- C4 (amended): for every NC/ASM response or notification with payload of
at least 5 bytes, the decoder caches ANC mode "nc" (the code's name for
noise-cancelling) when the enable flag byte is nonzero and the ambient flag
byte is zero, "ambient" when both are nonzero, and "off" when the enable
flag byte is zero, regardless of the ambient flag. -/
theorem anc_decode_sets_mode (st : ConnectorState) (msg : Message)
    (hcmd : msg.payload.getD 0 0 = NC_ASM_RET ∨ msg.payload.getD 0 0 = NC_ASM_NOTIFY)
    (hlen : 5 ≤ msg.payload.length) :
    (_process_notification st msg).anc_mode =
      if msg.payload.getD 3 0 ≠ 0 ∧ msg.payload.getD 4 0 = 0 then "nc"
      else if msg.payload.getD 3 0 ≠ 0 ∧ msg.payload.getD 4 0 ≠ 0 then "ambient"
      else "off" := by
  have hne : msg.payload ≠ [] := by
    intro h
    rw [h] at hlen
    simp at hlen
  have hnotbat : ¬ msg.payload.getD 0 0 = BATTERY_RET := by
    rcases hcmd with h | h <;> rw [h] <;> decide
  rw [_process_notification, if_neg hne]
  simp only
  rw [if_neg hnotbat, if_pos hcmd, if_pos hlen]
  simp only [ne_eq, Decidable.not_not]

/-- Witness for the amended C4 on the ambient-mode payload `69 19 01 01 01`. -/
theorem anc_decode_sets_mode_witness :
    (([0x69, 0x19, 0x01, 0x01, 0x01] : List Nat).getD 0 0 = NC_ASM_RET ∨
        ([0x69, 0x19, 0x01, 0x01, 0x01] : List Nat).getD 0 0 = NC_ASM_NOTIFY) ∧
      (_process_notification { initConnectorState with channel := true }
          ⟨0x0C, 0, [0x69, 0x19, 0x01, 0x01, 0x01]⟩).anc_mode =
        if ([0x69, 0x19, 0x01, 0x01, 0x01] : List Nat).getD 3 0 ≠ 0 ∧
            ([0x69, 0x19, 0x01, 0x01, 0x01] : List Nat).getD 4 0 = 0 then "nc"
        else if ([0x69, 0x19, 0x01, 0x01, 0x01] : List Nat).getD 3 0 ≠ 0 ∧
            ([0x69, 0x19, 0x01, 0x01, 0x01] : List Nat).getD 4 0 ≠ 0 then "ambient"
        else "off" :=
  ⟨Or.inr (by decide),
   anc_decode_sets_mode { initConnectorState with channel := true }
     ⟨0x0C, 0, [0x69, 0x19, 0x01, 0x01, 0x01]⟩ (Or.inr (by decide)) (by decide)⟩

/-- The opcodes `_process_notification` dispatches on. -/
def recognizedOpcodes : List Nat :=
  [BATTERY_RET, NC_ASM_RET, NC_ASM_NOTIFY, PLAY_RET_PARAM, 0xA9,
   DSEE_RET, DSEE_NOTIFY, SPEAK_TO_CHAT_RET, SPEAK_TO_CHAT_NOTIFY]

/-- C10: a message with empty payload, an unrecognized first byte, or a
payload shorter than the minimum for its opcode (4 bytes for battery, 5 for
NC/ASM, 3 for volume, DSEE and speak-to-chat) leaves every cached
device-state field unchanged. -/
theorem process_notification_no_update (st : ConnectorState) (msg : Message)
    (h : msg.payload = [] ∨
         msg.payload.getD 0 0 ∉ recognizedOpcodes ∨
         (msg.payload.getD 0 0 = BATTERY_RET ∧ msg.payload.length < 4) ∨
         ((msg.payload.getD 0 0 = NC_ASM_RET ∨ msg.payload.getD 0 0 = NC_ASM_NOTIFY) ∧
           msg.payload.length < 5) ∨
         ((msg.payload.getD 0 0 = PLAY_RET_PARAM ∨ msg.payload.getD 0 0 = 0xA9 ∨
           msg.payload.getD 0 0 = DSEE_RET ∨ msg.payload.getD 0 0 = DSEE_NOTIFY ∨
           msg.payload.getD 0 0 = SPEAK_TO_CHAT_RET ∨
           msg.payload.getD 0 0 = SPEAK_TO_CHAT_NOTIFY) ∧
           msg.payload.length < 3)) :
    _process_notification st msg = st := by
  by_cases hemp : msg.payload = []
  · rw [_process_notification, if_pos hemp]
  · rcases h with h | h | h | h | h
    · exact absurd h hemp
    · simp only [recognizedOpcodes, List.mem_cons, List.not_mem_nil, or_false,
        not_or] at h
      obtain ⟨h1, h2, h3, h4, h5, h6, h7, h8, h9⟩ := h
      rw [_process_notification, if_neg hemp]
      simp only
      rw [if_neg h1, if_neg (not_or.mpr ⟨h2, h3⟩), if_neg (not_or.mpr ⟨h4, h5⟩),
        if_neg (not_or.mpr ⟨h6, h7⟩), if_neg (not_or.mpr ⟨h8, h9⟩)]
    · obtain ⟨hc, hl⟩ := h
      rw [_process_notification, if_neg hemp]
      simp only
      rw [if_pos hc, if_neg (by omega)]
    · obtain ⟨hc, hl⟩ := h
      have hnb : ¬ msg.payload.getD 0 0 = BATTERY_RET := by
        rcases hc with h | h <;> rw [h] <;> decide
      rw [_process_notification, if_neg hemp]
      simp only
      rw [if_neg hnb, if_pos hc, if_neg (by omega)]
    · obtain ⟨hc, hl⟩ := h
      rw [_process_notification, if_neg hemp]
      simp only
      rcases hc with h | h | h | h | h | h
      · rw [if_neg (by rw [h]; decide), if_neg (by rw [h]; decide),
          if_pos (Or.inl h), if_neg (by omega)]
      · rw [if_neg (by rw [h]; decide), if_neg (by rw [h]; decide),
          if_pos (Or.inr h), if_neg (by omega)]
      · rw [if_neg (by rw [h]; decide), if_neg (by rw [h]; decide),
          if_neg (by rw [h]; decide), if_pos (Or.inl h), if_neg (by omega)]
      · rw [if_neg (by rw [h]; decide), if_neg (by rw [h]; decide),
          if_neg (by rw [h]; decide), if_pos (Or.inr h), if_neg (by omega)]
      · rw [if_neg (by rw [h]; decide), if_neg (by rw [h]; decide),
          if_neg (by rw [h]; decide), if_neg (by rw [h]; decide),
          if_pos (Or.inl h), if_neg (by omega)]
      · rw [if_neg (by rw [h]; decide), if_neg (by rw [h]; decide),
          if_neg (by rw [h]; decide), if_neg (by rw [h]; decide),
          if_pos (Or.inr h), if_neg (by omega)]

/-- Witness for C10: a truncated battery response (opcode 0x23, 1 byte)
leaves the state unchanged. -/
theorem process_notification_no_update_witness :
    (([0x23] : List Nat) = [] ∨
       ([0x23] : List Nat).getD 0 0 ∉ recognizedOpcodes ∨
       (([0x23] : List Nat).getD 0 0 = BATTERY_RET ∧ ([0x23] : List Nat).length < 4) ∨
       ((([0x23] : List Nat).getD 0 0 = NC_ASM_RET ∨
          ([0x23] : List Nat).getD 0 0 = NC_ASM_NOTIFY) ∧ ([0x23] : List Nat).length < 5) ∨
       ((([0x23] : List Nat).getD 0 0 = PLAY_RET_PARAM ∨
          ([0x23] : List Nat).getD 0 0 = 0xA9 ∨
          ([0x23] : List Nat).getD 0 0 = DSEE_RET ∨
          ([0x23] : List Nat).getD 0 0 = DSEE_NOTIFY ∨
          ([0x23] : List Nat).getD 0 0 = SPEAK_TO_CHAT_RET ∨
          ([0x23] : List Nat).getD 0 0 = SPEAK_TO_CHAT_NOTIFY) ∧
          ([0x23] : List Nat).length < 3)) ∧
      _process_notification initConnectorState ⟨0x0C, 1, [0x23]⟩ = initConnectorState :=
  ⟨Or.inr (Or.inr (Or.inl (by decide))),
   process_notification_no_update initConnectorState ⟨0x0C, 1, [0x23]⟩
     (Or.inr (Or.inr (Or.inl (by decide))))⟩

/-- C1 counterexample: a frame whose header declares length 1 but whose
interior carries 2 bytes before the (valid) checksum byte.  The claim says
`unpack` must return malformed; instead it returns a partial `Message`
containing only the first declared-length byte.  Interior:
`[0,0,0,0,0,1, 0,0, 1]` = header(len=1), two payload bytes, checksum 1. -/
theorem unpack_trailing_garbage_cx :
    unpack [0x3E, 0x00, 0x00, 0x00, 0x00, 0x00, 0x01, 0x00, 0x00, 0x01, 0x3C] =
      some ⟨0, 0, [0]⟩ := by decide

/-- A frame interior with explicit header bytes, body `bs` and a checksum
byte valid over everything before it, used to state what `unpack` does when
the declared length disagrees with the actual body length. -/
def declaredLenInner (t s b2 b3 b4 b5 : Nat) (bs : List Nat) : List Nat :=
  t :: s :: b2 :: b3 :: b4 :: b5 ::
    (bs ++ [checksum (t :: s :: b2 :: b3 :: b4 :: b5 :: bs)])

/-- Core characterization of `unpack` against a declared length that may
disagree with the actual body length. -/
lemma unpack_declared_length_core (t s b2 b3 b4 b5 : Nat) (bs : List Nat)
    (h3 : b3 < 256) (h4 : b4 < 256) (h5 : b5 < 256) :
    unpack (START_MARKER :: escape (declaredLenInner t s b2 b3 b4 b5 bs) ++ [END_MARKER]) =
      if b2 * 2 ^ 24 + b3 * 2 ^ 16 + b4 * 2 ^ 8 + b5 ≤ bs.length + 1 then
        some ⟨t, s, (bs ++ [checksum (t :: s :: b2 :: b3 :: b4 :: b5 :: bs)]).take
          (b2 * 2 ^ 24 + b3 * 2 ^ 16 + b4 * 2 ^ 8 + b5)⟩
      else none := by
  set c := checksum (t :: s :: b2 :: b3 :: b4 :: b5 :: bs) with hc
  rw [unpack_frame_eq, unpackInner]
  have hlen : (declaredLenInner t s b2 b3 b4 b5 bs).length = 7 + bs.length := by
    simp [declaredLenInner]
    omega
  rw [if_neg (by omega)]
  have hform : declaredLenInner t s b2 b3 b4 b5 bs = ([t, s, b2, b3, b4, b5] ++ bs) ++ [c] := by
    simp [declaredLenInner]
  have hlast : (declaredLenInner t s b2 b3 b4 b5 bs).getLastD 0 = c := by
    rw [hform, List.getLastD_concat]
  have hdropLast : (declaredLenInner t s b2 b3 b4 b5 bs).dropLast = [t, s, b2, b3, b4, b5] ++ bs := by
    rw [hform, List.dropLast_concat]
  have hchk : checksum ([t, s, b2, b3, b4, b5] ++ bs) = c := by
    rw [hc]
    simp [checksum]
  rw [hlast, hdropLast, hchk, if_neg (show ¬ c ≠ c from by simp)]
  simp only [declaredLenInner, List.getD_cons_zero, List.getD_cons_succ]
  rw [parse4_eq h3 h4 h5]
  have hdrop6 : (declaredLenInner t s b2 b3 b4 b5 bs).drop 6 = bs ++ [c] := rfl
  simp only [declaredLenInner] at hdrop6
  rw [hdrop6]
  have hlen2 : ((bs ++ [c]).take (b2 * 2 ^ 24 + b3 * 2 ^ 16 + b4 * 2 ^ 8 + b5)).length =
      min (b2 * 2 ^ 24 + b3 * 2 ^ 16 + b4 * 2 ^ 8 + b5) (bs.length + 1) := by
    rw [List.length_take]
    simp
  by_cases hL : b2 * 2 ^ 24 + b3 * 2 ^ 16 + b4 * 2 ^ 8 + b5 ≤ bs.length + 1
  · rw [if_pos hL, if_neg (by rw [hlen2]; omega)]
  · rw [if_neg hL, if_pos (by rw [hlen2]; omega)]

/-- C1 (amended): on a marker-delimited frame with valid checksum, declared
length `L` and `bs.length` body bytes before the checksum byte, `unpack`
returns a `Message` whenever `L ≤ bs.length + 1` — the payload is the first
`L` bytes of body-plus-checksum, so trailing garbage beyond the declared
length is silently accepted (and with `L = bs.length + 1` the checksum byte
itself lands in the payload) — and returns malformed only when the declared
length exceeds the available bytes by at least 2 (truncation). -/
theorem unpack_declared_length (t s b2 b3 b4 b5 : Nat) (bs : List Nat)
    (h3 : b3 < 256) (h4 : b4 < 256) (h5 : b5 < 256) :
    unpack (START_MARKER :: escape (declaredLenInner t s b2 b3 b4 b5 bs) ++ [END_MARKER]) =
      if b2 * 2 ^ 24 + b3 * 2 ^ 16 + b4 * 2 ^ 8 + b5 ≤ bs.length + 1 then
        some ⟨t, s, (bs ++ [checksum (t :: s :: b2 :: b3 :: b4 :: b5 :: bs)]).take
          (b2 * 2 ^ 24 + b3 * 2 ^ 16 + b4 * 2 ^ 8 + b5)⟩
      else none :=
  unpack_declared_length_core t s b2 b3 b4 b5 bs h3 h4 h5

/-- Witness for the amended C1: header declares length 1, body has 2 bytes —
`unpack` accepts and returns only the first byte. -/
theorem unpack_declared_length_witness :
    ((0 : Nat) < 256 ∧ (0 : Nat) < 256 ∧ (1 : Nat) < 256) ∧
      unpack (START_MARKER :: escape (declaredLenInner 12 0 0 0 0 1 [7, 8]) ++ [END_MARKER]) =
        if 0 * 2 ^ 24 + 0 * 2 ^ 16 + 0 * 2 ^ 8 + 1 ≤ ([7, 8] : List Nat).length + 1 then
          some ⟨12, 0, (([7, 8] : List Nat) ++
            [checksum (12 :: 0 :: 0 :: 0 :: 0 :: 1 :: [7, 8])]).take
              (0 * 2 ^ 24 + 0 * 2 ^ 16 + 0 * 2 ^ 8 + 1)⟩
        else none :=
  ⟨⟨by decide, by decide, by decide⟩,
   unpack_declared_length 12 0 0 0 0 1 [7, 8] (by decide) (by decide) (by decide)⟩

/-- `getD` of a replicated list inside bounds. -/
lemma getD_replicate {n i a d : Nat} (h : i < n) : (List.replicate n a).getD i d = a := by
  induction n generalizing i with
  | zero => omega
  | succ m ih =>
    cases i with
    | zero => rfl
    | succ j =>
      rw [List.replicate_succ, List.getD_cons_succ]
      exact ih (by omega)

/-- The wrapping byte sum of an all-zero byte string is zero. -/
lemma checksum_replicate_zero (n : Nat) : checksum (List.replicate n 0) = 0 := by
  simp [checksum, List.sum_replicate]

/-- C2 counterexample: for the 2^32-byte all-zero payload the 4-byte length
field wraps to 0, so `unpack (pack 0 0 P)` succeeds but yields the empty
payload instead of `P` — the round-trip fails for this payload. -/
theorem roundtrip_fails_at_2_pow_32 :
    unpack (pack 0 0 (List.replicate (2 ^ 32) 0)) = some ⟨0, 0, []⟩ ∧
      some (⟨0, 0, []⟩ : Message) ≠ some ⟨0, 0, List.replicate (2 ^ 32) 0⟩ := by
  constructor
  · have hA : packInner 0 0 (List.replicate (2 ^ 32) 0) = List.replicate (6 + 2 ^ 32) 0 := by
      rw [packInner, List.length_replicate,
        show packHeader 0 0 (2 ^ 32) = List.replicate 6 0 from by decide,
        ← List.replicate_add]
    have hchk0 : checksum (List.replicate (6 + 2 ^ 32) 0) = 0 := checksum_replicate_zero _
    have hC : innerWithChk 0 0 (List.replicate (2 ^ 32) 0) =
        List.replicate (6 + 2 ^ 32) 0 ++ [0] := by
      rw [innerWithChk, hA, hchk0]
    rw [pack, unpack_frame_eq, hC, unpackInner]
    have hlen : (List.replicate (6 + 2 ^ 32) (0 : Nat) ++ [0]).length = 6 + 2 ^ 32 + 1 := by
      rw [List.length_append, List.length_replicate, List.length_cons, List.length_nil]
    rw [if_neg (by rw [hlen]; norm_num)]
    rw [List.getLastD_concat, List.dropLast_concat, hchk0,
      if_neg (show ¬ (0 : Nat) ≠ 0 from by simp)]
    have hrep : (List.replicate (6 + 2 ^ 32) (0 : Nat)).length = 6 + 2 ^ 32 :=
      List.length_replicate _ _
    have hgd0 : (List.replicate (6 + 2 ^ 32) (0 : Nat) ++ [0]).getD 0 0 = 0 := by
      rw [List.getD_append _ _ _ _ (by rw [hrep]; norm_num)]
      exact getD_replicate (by norm_num)
    have hgd1 : (List.replicate (6 + 2 ^ 32) (0 : Nat) ++ [0]).getD 1 0 = 0 := by
      rw [List.getD_append _ _ _ _ (by rw [hrep]; norm_num)]
      exact getD_replicate (by norm_num)
    have hgd2 : (List.replicate (6 + 2 ^ 32) (0 : Nat) ++ [0]).getD 2 0 = 0 := by
      rw [List.getD_append _ _ _ _ (by rw [hrep]; norm_num)]
      exact getD_replicate (by norm_num)
    have hgd3 : (List.replicate (6 + 2 ^ 32) (0 : Nat) ++ [0]).getD 3 0 = 0 := by
      rw [List.getD_append _ _ _ _ (by rw [hrep]; norm_num)]
      exact getD_replicate (by norm_num)
    have hgd4 : (List.replicate (6 + 2 ^ 32) (0 : Nat) ++ [0]).getD 4 0 = 0 := by
      rw [List.getD_append _ _ _ _ (by rw [hrep]; norm_num)]
      exact getD_replicate (by norm_num)
    have hgd5 : (List.replicate (6 + 2 ^ 32) (0 : Nat) ++ [0]).getD 5 0 = 0 := by
      rw [List.getD_append _ _ _ _ (by rw [hrep]; norm_num)]
      exact getD_replicate (by norm_num)
    rw [hgd0, hgd1, hgd2, hgd3, hgd4, hgd5]
    rw [show ((0 : Nat) <<< 24) ||| ((0 : Nat) <<< 16) ||| ((0 : Nat) <<< 8) ||| 0 = 0 from by
      decide]
    dsimp only
    rw [List.take_zero]
    rw [if_neg (show ¬ (([] : List Nat).length ≠ 0) from by simp)]
  · simp only [ne_eq, Option.some.injEq, Message.mk.injEq, eq_self_iff_true, true_and]
    intro h
    have hl := congrArg List.length h
    rw [List.length_replicate] at hl
    simp at hl

/-- C2 (amended): for every data_type and seq in 0-255 and every payload of
byte values with fewer than 2^32 bytes, `unpack (pack t s P)` returns exactly
the message with that data_type, seq and payload. -/
theorem pack_unpack_roundtrip (t s : Nat) (P : List Nat)
    (ht : t < 256) (hs : s < 256) (hP : ∀ b ∈ P, b < 256)
    (hL : P.length < 2 ^ 32) :
    unpack (pack t s P) = some ⟨t, s, P⟩ :=
  unpack_pack t s P hL

/-- Witness for the amended C2 with a payload containing a reserved marker
byte, so the escaping path is exercised. -/
theorem pack_unpack_roundtrip_witness :
    ((12 : Nat) < 256 ∧ (1 : Nat) < 256 ∧ (∀ b ∈ ([0x23, 0x3E] : List Nat), b < 256) ∧
        ([0x23, 0x3E] : List Nat).length < 2 ^ 32) ∧
      unpack (pack 12 1 [0x23, 0x3E]) = some ⟨12, 1, [0x23, 0x3E]⟩ :=
  ⟨⟨by decide, by decide, by decide, by decide⟩,
   pack_unpack_roundtrip 12 1 [0x23, 0x3E] (by decide) (by decide) (by decide) (by decide)⟩

/-- An in-bounds `getD` is a member of the list. -/
lemma getD_mem {l : List Nat} {i d : Nat} (h : i < l.length) : l.getD i d ∈ l := by
  rw [List.getD_eq_getElem l d h]
  exact List.getElem_mem h

/-- C7: flipping any single byte of a packed frame's unescaped interior
(header, payload or checksum byte) to a different byte value and re-framing
makes `unpack` return malformed: the wrapping 8-bit checksum detects every
single-byte corruption. -/
theorem checksum_detects_corruption (t s : Nat) (P : List Nat) (i b2 : Nat)
    (ht : t < 256) (hs : s < 256) (hP : ∀ b ∈ P, b < 256)
    (hi : i < (innerWithChk t s P).length) (hb : b2 < 256)
    (hne : b2 ≠ (innerWithChk t s P).getD i 0) :
    unpack (START_MARKER :: escape ((innerWithChk t s P).set i b2) ++ [END_MARKER]) = none := by
  have hsplit : innerWithChk t s P = packInner t s P ++ [checksum (packInner t s P)] := rfl
  rw [hsplit] at hi hne ⊢
  set y := packInner t s P with hy
  have hylen : y.length = 6 + P.length := by
    rw [hy, packInner, List.length_append]
    rw [show (packHeader t s P.length).length = 6 from rfl]
  have hi2 : i < y.length + 1 := by
    rw [List.length_append] at hi
    simpa using hi
  rcases Nat.lt_or_ge i y.length with hilt | hige
  · -- corrupted byte inside header or payload: recomputed checksum changes
    rw [List.set_append, if_pos hilt, unpack_frame_eq, unpackInner]
    rw [if_neg (by rw [List.length_append, List.length_set]; simp; omega)]
    rw [List.getLastD_concat, List.dropLast_concat]
    have hgd : (y ++ [checksum y]).getD i 0 = y.getD i 0 :=
      List.getD_append _ _ _ _ hilt
    rw [hgd] at hne
    have hglt : y.getD i 0 < 256 :=
      mem_packInner_lt t s P ht hs hP _ (by rw [hy] at hilt ⊢; exact getD_mem hilt)
    have hsum := sum_set y i b2 hilt
    have hdiff : checksum y ≠ checksum (y.set i b2) := by
      rw [checksum, checksum]
      intro heq
      omega
    rw [if_pos hdiff]
  · -- corrupted checksum byte: stored and recomputed checksums now differ
    have hieq : i = y.length := by omega
    subst hieq
    rw [List.set_append, if_neg (by omega), Nat.sub_self,
      show ([checksum y].set 0 b2) = [b2] from rfl,
      unpack_frame_eq, unpackInner]
    rw [if_neg (by rw [List.length_append]; simp; omega)]
    rw [List.getLastD_concat, List.dropLast_concat]
    have hgd : (y ++ [checksum y]).getD y.length 0 = checksum y := by
      rw [List.getD_append_right _ _ _ _ (le_refl _), Nat.sub_self]
      rfl
    rw [hgd] at hne
    rw [if_pos hne]

/-- Witness for C7: corrupting the data_type byte of `pack 12 0 []` makes
`unpack` reject the re-framed packet. -/
theorem checksum_detects_corruption_witness :
    ((12 : Nat) < 256 ∧ (0 : Nat) < 256 ∧ (∀ b ∈ ([] : List Nat), b < 256) ∧
        0 < (innerWithChk 12 0 []).length ∧ (1 : Nat) < 256 ∧
        (1 : Nat) ≠ (innerWithChk 12 0 []).getD 0 0) ∧
      unpack (START_MARKER :: escape ((innerWithChk 12 0 []).set 0 1) ++ [END_MARKER]) = none :=
  ⟨⟨by decide, by decide, by decide, by decide, by decide, by decide⟩,
   checksum_detects_corruption 12 0 [] 0 1 (by decide) (by decide) (by decide)
     (by decide) (by decide) (by decide)⟩

/-- `_process_notification` never touches the receive buffer. -/
lemma process_notification_recv_buffer (st : ConnectorState) (msg : Message) :
    (_process_notification st msg).recv_buffer = st.recv_buffer := by
  rw [_process_notification]
  dsimp only
  split_ifs <;> rfl

/-- `_process_notification` never touches the channel flag. -/
lemma process_notification_channel (st : ConnectorState) (msg : Message) :
    (_process_notification st msg).channel = st.channel := by
  rw [_process_notification]
  dsimp only
  split_ifs <;> rfl

/-- C3 (amended): when the corrupted candidate is a single marker-delimited
span — a start marker, a marker-free interior, an end marker — that fails to
unpack, `extract_message` discards the byte at its start marker, resumes the
scan, and returns the following valid frame's `Message` with the bytes after
that frame's end marker as the remaining buffer. -/
theorem extract_resync_recovers (m : List Nat) (t s : Nat) (P R : List Nat)
    (hm1 : START_MARKER ∉ m) (hm2 : END_MARKER ∉ m)
    (hfail : unpack (START_MARKER :: m ++ [END_MARKER]) = none)
    (hL : P.length < 2 ^ 32) :
    extract_message ((START_MARKER :: m ++ [END_MARKER]) ++ pack t s P ++ R) =
      (some ⟨t, s, P⟩, R) := by
  have hcons : (START_MARKER :: m ++ [END_MARKER]) ++ pack t s P ++ R =
      START_MARKER :: (m ++ END_MARKER :: (pack t s P ++ R)) := by simp
  have hst : find_from ((START_MARKER :: m ++ [END_MARKER]) ++ pack t s P ++ R)
      START_MARKER 0 = some 0 := by
    rw [find_from_eq, List.drop_zero, hcons, find_byte, if_pos rfl]
    rfl
  have hdrop1 : ((START_MARKER :: m ++ [END_MARKER]) ++ pack t s P ++ R).drop (0 + 1) =
      m ++ END_MARKER :: (pack t s P ++ R) := by
    rw [hcons]
    rfl
  have he : find_from ((START_MARKER :: m ++ [END_MARKER]) ++ pack t s P ++ R)
      END_MARKER (0 + 1) = some (m.length + (0 + 1)) := by
    rw [find_from_eq, hdrop1, find_byte_append_first hm2]
    rfl
  have hraw : (((START_MARKER :: m ++ [END_MARKER]) ++ pack t s P ++ R).drop 0).take
      (m.length + (0 + 1) + 1 - 0) = START_MARKER :: m ++ [END_MARKER] := by
    rw [List.drop_zero, hcons]
    rw [show m.length + (0 + 1) + 1 - 0 = m.length + 1 + 1 from by omega,
      List.take_succ_cons, List.take_append]
    simp [List.take]
  have hu : unpack ((((START_MARKER :: m ++ [END_MARKER]) ++ pack t s P ++ R).drop 0).take
      (m.length + (0 + 1) + 1 - 0)) = none := by
    rw [hraw]
    exact hfail
  rw [extract_message_resync hst he hu, hdrop1]
  have hnostart : START_MARKER ∉ m ++ [END_MARKER] := by
    intro hmem
    rcases List.mem_append.mp hmem with h | h
    · exact hm1 h
    · simp [START_MARKER, END_MARKER] at h
  rw [show m ++ END_MARKER :: (pack t s P ++ R) = (m ++ [END_MARKER]) ++ pack t s P ++ R
    from by simp]
  exact extract_message_success hnostart hL

/-- C6: receiving one framed non-ACK data frame with sequence number s (with
an open channel and an empty receive buffer) makes `_on_data_received`
perform, in order: send the ACK packet whose sequence field is `1 - s` when
`s ≤ 1` and `0` otherwise, then feed the frame to notification processing,
then queue it as a pending response. -/
theorem ack_sent_before_processing (st : ConnectorState) (t s : Nat) (P : List Nat)
    (hbuf : st.recv_buffer = []) (hch : st.channel = true)
    (hack : t ≠ 0x01) (hL : P.length < 2 ^ 32) :
    (_on_data_received st (pack t s P)).2 =
      [RxEvent.sent (_build_ack_packet (if s ≤ 1 then 1 - s else 0)),
       RxEvent.processed ⟨t, s, P⟩, RxEvent.queued ⟨t, s, P⟩] := by
  have hx : extract_message (pack t s P) = (some ⟨t, s, P⟩, []) := by
    have h := extract_message_success (l := []) (R := []) (t := t) (s := s) (P := P)
      (by simp) hL
    simpa using h
  rw [_on_data_received]
  dsimp only
  rw [hbuf, List.nil_append]
  have hk : (pack t s P).length = ((escape (innerWithChk t s P)).length + 1) + 1 := by
    rw [pack]
    simp
  rw [hk, recv_loop]
  dsimp only
  rw [hx]
  dsimp only
  rw [handle_frame]
  rw [if_neg (show ¬ (Message.data_type ⟨t, s, P⟩ = 0x01) from hack)]
  dsimp only
  rw [hch]
  rw [recv_loop]
  dsimp only
  rw [process_notification_recv_buffer]
  dsimp only
  rfl

/-- C3 counterexample: the undecodable candidate `3E 00 00 00 00 00 00 C2`
(no end marker of its own, checksum byte crafted so the sums cancel) merges
with the valid frame `pack 12 0 [0x23]` that follows it: `extract_message`
returns a bogus empty message assembled across the boundary and consumes the
valid frame, instead of skipping the garbage and returning the valid frame's
message. -/
theorem extract_merge_cx :
    unpack [0x3E, 0x00, 0x00, 0x00, 0x00, 0x00, 0x00, 0xC2] = none ∧
      extract_message ([0x3E, 0x00, 0x00, 0x00, 0x00, 0x00, 0x00, 0xC2] ++ pack 12 0 [0x23]) =
        (some ⟨0, 0, []⟩, []) ∧
      (some (⟨0, 0, []⟩ : Message), ([] : List Nat)) ≠ (some ⟨12, 0, [0x23]⟩, []) :=
  ⟨by decide, by decide, by decide⟩

/-- Witness for the amended C3: garbage byte 0x00 inside a marker-delimited
failed frame, then a valid frame, then a trailing byte. -/
theorem extract_resync_recovers_witness :
    (START_MARKER ∉ ([0x00] : List Nat) ∧ END_MARKER ∉ ([0x00] : List Nat) ∧
        unpack (START_MARKER :: [0x00] ++ [END_MARKER]) = none ∧
        ([0x23] : List Nat).length < 2 ^ 32) ∧
      extract_message ((START_MARKER :: [0x00] ++ [END_MARKER]) ++ pack 12 0 [0x23] ++ [0x99]) =
        (some ⟨12, 0, [0x23]⟩, [0x99]) :=
  ⟨⟨by decide, by decide, by decide, by decide⟩,
   extract_resync_recovers [0x00] 12 0 [0x23] [0x99] (by decide) (by decide) (by decide)
     (by decide)⟩

/-- Witness for C6: a battery inquiry response frame with seq 0 produces the
ACK-then-process-then-queue event sequence. -/
theorem ack_sent_before_processing_witness :
    (({ initConnectorState with channel := true } : ConnectorState).recv_buffer = [] ∧
        ({ initConnectorState with channel := true } : ConnectorState).channel = true ∧
        (12 : Nat) ≠ 0x01 ∧ ([0x23] : List Nat).length < 2 ^ 32) ∧
      (_on_data_received { initConnectorState with channel := true } (pack 12 0 [0x23])).2 =
        [RxEvent.sent (_build_ack_packet (if 0 ≤ 1 then 1 - 0 else 0)),
         RxEvent.processed ⟨12, 0, [0x23]⟩, RxEvent.queued ⟨12, 0, [0x23]⟩] :=
  ⟨⟨by decide, by decide, by decide, by decide⟩,
   ack_sent_before_processing { initConnectorState with channel := true } 12 0 [0x23]
     (by decide) (by decide) (by decide) (by decide)⟩

end SonyXM6
